import Mathlib

/-!
Verification of the BMC memory/delta/suggestion pipeline.

Shallow embedding of `bmc/application/memory_service.py`,
`bmc/application/proactive_service.py`, the data model in
`bmc/domain/business_user.py`, and `proactive_suggestion_node` from
`bmc/application/conversation_service/workflow/nodes.py`.

Python dicts are modelled as association lists over `String` keys with
dict-assignment semantics (`dictSet` overwrites an existing entry in place,
otherwise appends).  Python sets of strings are modelled as `Finset String`:
the code only ever builds `list(someSet)` whose element order is unspecified,
and no downstream consumer inside the verified core depends on that order.
The two LLM oracle calls are modelled as explicit inputs (the parsed outcome
of the oracle response); the functions are parametric in them, so a result
that is constant in the oracle input was produced without consulting it.
-/

namespace BMC

/-- Python `d.get(k)` on a string-keyed dict: value of the first entry whose
key equals `k`. -/
def pyGet {α : Type} : List (String × α) → String → Option α
  | [], _ => none
  | p :: d, k => if p.1 = k then some p.2 else pyGet d k

/-- Python `d.get(k, dflt)`. -/
def pyGetD {α : Type} (d : List (String × α)) (k : String) (dflt : α) : α :=
  (pyGet d k).getD dflt

/-- Python dict assignment `d[k] = v`: overwrite the entry for `k` in place
if present, otherwise append a new entry. -/
def dictSet {α : Type} : List (String × α) → String → α → List (String × α)
  | [], k, v => [(k, v)]
  | p :: d, k, v => if p.1 = k then (k, v) :: d else p :: dictSet d k v

/-- Python `d.keys()` (as a list, in entry order). -/
def pyKeys {α : Type} (d : List (String × α)) : List String := d.map Prod.fst

/-- `BusinessInsights` (bmc/domain/business_user.py): the structured semantic
memory.  `canvas_state : Dict[str, List[str]]` is an arbitrary string-keyed
dict of fact lists; the remaining fields are plain string lists. -/
structure BusinessInsights where
  canvas_state : List (String × List String)
  constraints : List String
  preferences : List String
  pending_topics : List String
deriving DecidableEq

/-- The pydantic default for `canvas_state`: all nine canvas blocks present
with empty lists. -/
def defaultCanvasState : List (String × List String) :=
  [("customer_segments", []), ("value_propositions", []), ("channels", []),
   ("customer_relationships", []), ("revenue_streams", []), ("key_resources", []),
   ("key_activities", []), ("key_partnerships", []), ("cost_structure", [])]

/-- `BusinessInsights()` with all defaults. -/
def BusinessInsights.default : BusinessInsights :=
  ⟨defaultCanvasState, [], [], []⟩

/-- The dict returned by `MemoryExtractionResult.compute_delta`: it is built
as `{"added": {}, "removed": {}, "modified": {}}` and entries are assigned
into `added`/`removed` only.  Values are the Python sets `new − old` /
`old − new` (the code stores `list(thatSet)` in unspecified order). -/
@[ext]
structure Delta where
  added : List (String × Finset String)
  removed : List (String × Finset String)
  modified : List (String × Finset String)
deriving DecidableEq

/-- One iteration of the `for block in old_canvas.keys()` loop in
`compute_delta`: compare `set(old_canvas.get(block, []))` with
`set(new_canvas.get(block, []))` and record the non-empty differences. -/
def canvasStep (old_canvas new_canvas : List (String × List String))
    (delta : Delta) (block : String) : Delta :=
  let old_items : Finset String := (pyGetD old_canvas block []).toFinset
  let new_items : Finset String := (pyGetD new_canvas block []).toFinset
  let added := new_items \ old_items
  let removed := old_items \ new_items
  let delta1 :=
    if added ≠ ∅ then { delta with added := dictSet delta.added block added } else delta
  if removed ≠ ∅ then { delta1 with removed := dictSet delta1.removed block removed } else delta1

/-- `MemoryExtractionResult.compute_delta` (memory_service.py lines 21-66):
iterate over the keys of the OLD canvas dict comparing the block's fact sets,
then compare `constraints` and `pending_topics` under synthetic keys. -/
def compute_delta (old_insights new_insights : BusinessInsights) : Delta :=
  let old_canvas := old_insights.canvas_state
  let new_canvas := new_insights.canvas_state
  let d1 := (pyKeys old_canvas).foldl (canvasStep old_canvas new_canvas) ⟨[], [], []⟩
  let old_constraints := old_insights.constraints.toFinset
  let new_constraints := new_insights.constraints.toFinset
  let d2 :=
    if new_constraints \ old_constraints ≠ ∅ then
      { d1 with added := dictSet d1.added "constraints" (new_constraints \ old_constraints) }
    else d1
  let d3 :=
    if old_constraints \ new_constraints ≠ ∅ then
      { d2 with removed := dictSet d2.removed "constraints" (old_constraints \ new_constraints) }
    else d2
  let old_pending := old_insights.pending_topics.toFinset
  let new_pending := new_insights.pending_topics.toFinset
  let d4 :=
    if new_pending \ old_pending ≠ ∅ then
      { d3 with added := dictSet d3.added "pending_topics" (new_pending \ old_pending) }
    else d3
  if old_pending \ new_pending ≠ ∅ then
    { d4 with removed := dictSet d4.removed "pending_topics" (old_pending \ new_pending) }
  else d4

/-- `bool(delta.get("added") or delta.get("removed"))` for a full delta dict
(memory_service.py line 321): true iff the added or removed map is non-empty. -/
def deltaHasChanges (d : Delta) : Bool :=
  !d.added.isEmpty || !d.removed.isEmpty

/-- The dynamically-typed `delta` dict stored in a `MemoryExtractionResult`:
either the literal empty dict `{}` (the no-change default) or a full
`{"added": …, "removed": …, "modified": …}` dict from `compute_delta`. -/
inductive DeltaVal where
  | emptyDict : DeltaVal
  | full : Delta → DeltaVal
deriving DecidableEq

/-- `MemoryExtractionResult` (memory_service.py lines 14-19). -/
structure MemoryExtractionResult where
  updated_insights : BusinessInsights
  delta : DeltaVal
  has_changes : Bool
deriving DecidableEq

/-- One JSON value, as produced by `json.loads`. -/
inductive PyVal where
  | pynull : PyVal
  | pybool : Bool → PyVal
  | pynum : ℚ → PyVal
  | pystr : String → PyVal
  | pylist : List PyVal → PyVal
  | pydict : List (String × PyVal) → PyVal

/-- pydantic validation of one `str` element: only a JSON string is accepted. -/
def validateStr : PyVal → Option String
  | .pystr s => some s
  | _ => none

/-- pydantic validation of a `List[str]` field. -/
def validateStrList : PyVal → Option (List String)
  | .pylist xs => xs.mapM validateStr
  | _ => none

/-- pydantic validation of `Dict[str, List[str]]` (`canvas_state`): every
value must be a flat list of strings; a nested dict or list inside a
category list is a validation error. -/
def validateCanvas : PyVal → Option (List (String × List String))
  | .pydict d => d.mapM (fun p => (validateStrList p.2).map (fun l => (p.1, l)))
  | _ => none

/-- pydantic field handling: an absent field takes its declared default, a
present field must validate. -/
def validateField {α : Type} (d : List (String × PyVal)) (k : String)
    (dflt : α) (validator : PyVal → Option α) : Option α :=
  match pyGet d k with
  | none => some dflt
  | some v => validator v

/-- `BusinessInsights(**data)` (bmc/domain/business_user.py lines 6-41):
pydantic validation of the parsed oracle output.  `none` models a raised
`ValidationError` (or `TypeError` when `data` is not a JSON object). -/
def validateInsights : PyVal → Option BusinessInsights
  | .pydict d => do
      let canvas ← validateField d "canvas_state" defaultCanvasState validateCanvas
      let cons ← validateField d "constraints" [] validateStrList
      let prefs ← validateField d "preferences" [] validateStrList
      let pend ← validateField d "pending_topics" [] validateStrList
      some ⟨canvas, cons, prefs, pend⟩
  | _ => none

/-- The `no_change_result` of `extract_business_facts` (memory_service.py
lines 276-280): existing insights unchanged, the literal `{}` delta,
`has_changes=False`. -/
def noChangeResult (existing_insights : BusinessInsights) : MemoryExtractionResult :=
  ⟨existing_insights, .emptyDict, false⟩

/-- `MemoryService.extract_business_facts` after the oracle call
(memory_service.py lines 310-345).  `parsed` is the outcome of `json.loads`
on the cleaned oracle response: `none` models a `JSONDecodeError` (invalid
JSON) or a non-string response, `some v` the parsed JSON value, which is
then validated against the `BusinessInsights` schema; any failure returns
the no-change result instead of raising. -/
def extract_business_facts (existing_insights : BusinessInsights)
    (parsed : Option PyVal) : MemoryExtractionResult :=
  match parsed with
  | none => noChangeResult existing_insights
  | some v =>
    match validateInsights v with
    | none => noChangeResult existing_insights
    | some updated_insights =>
      let delta := compute_delta existing_insights updated_insights
      ⟨updated_insights, .full delta, deltaHasChanges delta⟩

/-- `ProactiveSuggestion` (proactive_service.py lines 80-85); `confidence`
is modelled as a rational number. -/
structure ProactiveSuggestion where
  suggestion : Option String
  target_block : Option String
  confidence : ℚ
deriving DecidableEq

/-- `ProactiveSuggestion.should_show` (proactive_service.py lines 87-90). -/
def ProactiveSuggestion.should_show (s : ProactiveSuggestion) : Bool :=
  s.suggestion.isSome && decide ((6 : ℚ)/10 ≤ s.confidence)

/-- `_CANVAS_IMPLICATIONS` (proactive_service.py lines 20-30). -/
def CANVAS_IMPLICATIONS : List (String × List String) :=
  [("customer_segments", ["channels", "customer_relationships", "value_propositions"]),
   ("value_propositions", ["customer_segments", "revenue_streams", "key_activities"]),
   ("channels", ["customer_relationships", "key_partnerships"]),
   ("customer_relationships", ["channels", "key_resources"]),
   ("revenue_streams", ["value_propositions", "cost_structure"]),
   ("key_resources", ["key_activities", "key_partnerships", "cost_structure"]),
   ("key_activities", ["key_resources", "key_partnerships", "cost_structure"]),
   ("key_partnerships", ["key_activities", "key_resources", "channels"]),
   ("cost_structure", ["key_resources", "key_activities", "revenue_streams"])]

/-- `ProactiveService._has_cross_canvas_potential` (proactive_service.py
lines 104-113): false for a falsy delta dict or a falsy `added` map,
otherwise true iff some added key is a key of `_CANVAS_IMPLICATIONS`. -/
def hasCrossCanvasPotential (delta : DeltaVal) : Bool :=
  match delta with
  | .emptyDict => false
  | .full d =>
    if d.added.isEmpty then false
    else d.added.any (fun p => decide (p.1 ∈ pyKeys CANVAS_IMPLICATIONS))

/-- The fields read from the suggestion oracle's parsed JSON object:
`data.get("suggestion")`, `data.get("target_block")` (`none` = key absent or
JSON null) and `data.get("confidence", 0.5)` (`none` = key absent). -/
structure OracleSuggestionJson where
  suggestion : Option String
  target_block : Option String
  confidence : Option ℚ
deriving DecidableEq

/-- `ProactiveService.generate_suggestion` (proactive_service.py lines
115-183).  `oracle` is the parsed outcome of the suggestion oracle call:
`none` models a `JSONDecodeError` or any raised error, `some j` a parsed
JSON object.  `canvas_state` and `sector` enter only the oracle prompt and
so are absorbed into the `oracle` input.  The fast-reject gate returns the
null suggestion before the oracle input is inspected. -/
def generate_suggestion (delta : DeltaVal)
    (oracle : Option OracleSuggestionJson) : ProactiveSuggestion :=
  if !hasCrossCanvasPotential delta then ⟨none, none, 0⟩
  else
    match oracle with
    | none => ⟨none, none, 0⟩
    | some j => ⟨j.suggestion, j.target_block, j.confidence.getD ((5 : ℚ)/10)⟩

/-- `BusinessUser` (bmc/domain/business_user.py lines 44-67). -/
structure BusinessUser where
  token : String
  role : String
  owner_name : String
  business_name : String
  sector : String
  challenges : List String
  goals : List String
  key_insights : BusinessInsights
deriving DecidableEq

/-- Modelled from the spec: the user store behind `BusinessUserFactory`
(`bmc/domain/business_user_factory.py` is not among the sources).  Spec §6:
"User store: get_user(token) -> User?, replace_user(token, User) -> success.
Token is an opaque unique string." and §6 "one document per user".  The
store is a token-keyed dict of user documents. -/
abbrev UserStore : Type := List (String × BusinessUser)

/-- Modelled from the spec: `BusinessUserFactory.get_user_by_token` looks the
token up in the store, `None` on a miss. -/
def get_user_by_token (store : UserStore) (token : String) : Option BusinessUser :=
  pyGet store token

/-- Modelled from the spec: `BusinessUserFactory.update_user` replaces the
whole user document at the token (last-write-wins, spec §5). -/
def update_user (store : UserStore) (token : String) (user : BusinessUser) : UserStore :=
  dictSet store token user

/-- `MemoryService.update_user_memory` (memory_service.py lines 347-385):
load the user by token (returning `None` on a miss), extract facts, persist
the new insights only when the extraction reports changes.  Returns the
store after the call together with the Python return value. -/
def update_user_memory (store : UserStore) (user_token : String)
    (parsed : Option PyVal) : UserStore × Option MemoryExtractionResult :=
  match get_user_by_token store user_token with
  | none => (store, none)
  | some user =>
    let result := extract_business_facts user.key_insights parsed
    if result.has_changes then
      let user' := { user with key_insights := result.updated_insights }
      (update_user store user_token user', some result)
    else
      (store, some result)

/-- Python truthiness of the node's `memory_delta` state value: `None` and
the empty dict `{}` are falsy, a full delta dict is truthy. -/
def deltaTruthy : Option DeltaVal → Bool
  | none => false
  | some .emptyDict => false
  | some (.full _) => true

/-- Rendering of an optional string inside an f-string. -/
def fstr : Option String → String
  | some t => t
  | none => "None"

/-- `proactive_suggestion_node` (workflow/nodes.py lines 417-487), the state
slice relevant to the store: skip when `memory_delta` or `user_token` is
falsy (`user_token = ""` models a falsy token) or the user is not found;
otherwise generate the suggestion and, when it passes `should_show`, append
the `"[SYS] "`-tagged text to the user's `pending_topics` and persist —
unless the identical tagged string is already present, in which case no
write is made.  Returns the store after the call and the
`(proactive_suggestion, proactive_target_block)` output. -/
def proactive_suggestion_node (store : UserStore) (memory_delta : Option DeltaVal)
    (user_token : String) (oracle : Option OracleSuggestionJson) :
    UserStore × (Option String × Option String) :=
  if !deltaTruthy memory_delta || user_token = "" then (store, (none, none))
  else
    match get_user_by_token store user_token with
    | none => (store, (none, none))
    | some user =>
      let suggestion_result := generate_suggestion (memory_delta.getD .emptyDict) oracle
      if suggestion_result.should_show then
        let sys_topic := "[SYS] " ++ fstr suggestion_result.suggestion
        if sys_topic ∈ user.key_insights.pending_topics then
          (store, (suggestion_result.suggestion, suggestion_result.target_block))
        else
          let user' := { user with key_insights :=
            { user.key_insights with pending_topics :=
                user.key_insights.pending_topics ++ [sys_topic] } }
          (update_user store user_token user',
           (suggestion_result.suggestion, suggestion_result.target_block))
      else (store, (none, none))

/-! ### Dictionary lemmas -/

lemma pyGet_dictSet_self {α : Type} (d : List (String × α)) (k : String) (v : α) :
    pyGet (dictSet d k v) k = some v := by
  induction d with
  | nil => simp [dictSet, pyGet]
  | cons p d ih =>
    by_cases h : p.1 = k
    · simp [dictSet, h, pyGet]
    · simp [dictSet, h, pyGet, ih]

lemma pyGet_dictSet_ne {α : Type} (d : List (String × α)) (k k' : String) (v : α)
    (h : k' ≠ k) : pyGet (dictSet d k v) k' = pyGet d k' := by
  induction d with
  | nil => simp [dictSet, pyGet, Ne.symm h]
  | cons p d ih =>
    by_cases hp : p.1 = k
    · simp [dictSet, hp, pyGet, Ne.symm h, h]
    · simp [dictSet, hp, pyGet, ih]

lemma pyGet_eq_none_iff {α : Type} (d : List (String × α)) (k : String) :
    pyGet d k = none ↔ k ∉ pyKeys d := by
  induction d with
  | nil => simp [pyGet, pyKeys]
  | cons p d ih =>
    by_cases h : p.1 = k
    · simp [pyGet, h, pyKeys]
    · simp [pyGet, h, pyKeys, ih, Ne.symm h]

lemma mem_pyKeys_iff_pyGet {α : Type} (d : List (String × α)) (k : String) :
    k ∈ pyKeys d ↔ pyGet d k ≠ none := by
  rw [Ne, pyGet_eq_none_iff, not_not]

lemma pyGet_ite_dictSet_ne {α : Type} (c : Prop) [Decidable c]
    (d : List (String × α)) (k0 k : String) (v : α) (h : k ≠ k0) :
    pyGet (if c then dictSet d k0 v else d) k = pyGet d k := by
  split
  · exact pyGet_dictSet_ne d k0 k v h
  · rfl

lemma pyGet_ite_dictSet_self {α : Type} (c : Prop) [Decidable c]
    (d : List (String × α)) (k0 : String) (v : α) :
    pyGet (if c then dictSet d k0 v else d) k0 = if c then some v else pyGet d k0 := by
  split
  · exact pyGet_dictSet_self d k0 v
  · rfl

/-! ### Characterization of `compute_delta` -/

/-- The set `new_items − old_items` computed by the canvas loop for a block. -/
def canvasAddDiff (old_canvas new_canvas : List (String × List String))
    (block : String) : Finset String :=
  (pyGetD new_canvas block []).toFinset \ (pyGetD old_canvas block []).toFinset

/-- The set `old_items − new_items` computed by the canvas loop for a block. -/
def canvasRemDiff (old_canvas new_canvas : List (String × List String))
    (block : String) : Finset String :=
  (pyGetD old_canvas block []).toFinset \ (pyGetD new_canvas block []).toFinset

lemma canvasStep_added (oldC newC : List (String × List String)) (acc : Delta) (b : String) :
    (canvasStep oldC newC acc b).added =
      if canvasAddDiff oldC newC b ≠ ∅ then dictSet acc.added b (canvasAddDiff oldC newC b)
      else acc.added := by
  unfold canvasStep canvasAddDiff
  dsimp only
  split <;> split <;> rfl

lemma canvasStep_removed (oldC newC : List (String × List String)) (acc : Delta) (b : String) :
    (canvasStep oldC newC acc b).removed =
      if canvasRemDiff oldC newC b ≠ ∅ then dictSet acc.removed b (canvasRemDiff oldC newC b)
      else acc.removed := by
  unfold canvasStep canvasRemDiff
  dsimp only
  split <;> split <;> rfl

lemma canvasStep_modified (oldC newC : List (String × List String)) (acc : Delta) (b : String) :
    (canvasStep oldC newC acc b).modified = acc.modified := by
  unfold canvasStep
  dsimp only
  split <;> split <;> rfl

lemma canvasFold_modified (oldC newC : List (String × List String))
    (bs : List String) (acc : Delta) :
    (bs.foldl (canvasStep oldC newC) acc).modified = acc.modified := by
  induction bs generalizing acc with
  | nil => rfl
  | cons b bs ih => rw [List.foldl_cons, ih, canvasStep_modified]

lemma pyGet_canvasFold_added (oldC newC : List (String × List String))
    (bs : List String) (acc : Delta) (k : String) :
    pyGet (bs.foldl (canvasStep oldC newC) acc).added k =
      if k ∈ bs ∧ canvasAddDiff oldC newC k ≠ ∅ then some (canvasAddDiff oldC newC k)
      else pyGet acc.added k := by
  induction bs generalizing acc with
  | nil => simp
  | cons b bs ih =>
    rw [List.foldl_cons, ih]
    by_cases hbk : b = k
    · subst hbk
      by_cases hd : canvasAddDiff oldC newC b ≠ ∅
      · simp only [List.mem_cons, true_or, hd, and_true, if_pos, canvasStep_added, if_pos hd,
          pyGet_dictSet_self]
        simp [hd]
      · simp only [hd, and_false, if_neg, canvasStep_added, if_neg hd]
        simp [hd]
    · rw [canvasStep_added]
      rw [pyGet_ite_dictSet_ne _ _ _ _ _ (Ne.symm hbk)]
      have hmem : k ∈ b :: bs ↔ k ∈ bs := by
        simp [List.mem_cons, Ne.symm hbk]
      simp only [hmem]

lemma pyGet_canvasFold_removed (oldC newC : List (String × List String))
    (bs : List String) (acc : Delta) (k : String) :
    pyGet (bs.foldl (canvasStep oldC newC) acc).removed k =
      if k ∈ bs ∧ canvasRemDiff oldC newC k ≠ ∅ then some (canvasRemDiff oldC newC k)
      else pyGet acc.removed k := by
  induction bs generalizing acc with
  | nil => simp
  | cons b bs ih =>
    rw [List.foldl_cons, ih]
    by_cases hbk : b = k
    · subst hbk
      by_cases hd : canvasRemDiff oldC newC b ≠ ∅
      · simp only [List.mem_cons, true_or, hd, and_true, if_pos, canvasStep_removed, if_pos hd,
          pyGet_dictSet_self]
        simp [hd]
      · simp only [hd, and_false, if_neg, canvasStep_removed, if_neg hd]
        simp [hd]
    · rw [canvasStep_removed]
      rw [pyGet_ite_dictSet_ne _ _ _ _ _ (Ne.symm hbk)]
      have hmem : k ∈ b :: bs ↔ k ∈ bs := by
        simp [List.mem_cons, Ne.symm hbk]
      simp only [hmem]

lemma added_ite_removed {c : Prop} [Decidable c] (d : Delta)
    (x : List (String × Finset String)) :
    (if c then { d with removed := x } else d).added = d.added := by
  split <;> rfl

lemma removed_ite_added {c : Prop} [Decidable c] (d : Delta)
    (x : List (String × Finset String)) :
    (if c then { d with added := x } else d).removed = d.removed := by
  split <;> rfl

lemma added_ite_added {c : Prop} [Decidable c] (d : Delta)
    (x : List (String × Finset String)) :
    (if c then { d with added := x } else d).added = if c then x else d.added := by
  split <;> rfl

lemma removed_ite_removed {c : Prop} [Decidable c] (d : Delta)
    (x : List (String × Finset String)) :
    (if c then { d with removed := x } else d).removed = if c then x else d.removed := by
  split <;> rfl

lemma modified_ite_added {c : Prop} [Decidable c] (d : Delta)
    (x : List (String × Finset String)) :
    (if c then { d with added := x } else d).modified = d.modified := by
  split <;> rfl

lemma modified_ite_removed {c : Prop} [Decidable c] (d : Delta)
    (x : List (String × Finset String)) :
    (if c then { d with removed := x } else d).modified = d.modified := by
  split <;> rfl

lemma pyGet_compute_delta_added (old_insights new_insights : BusinessInsights) (k : String)
    (hk1 : k ≠ "constraints") (hk2 : k ≠ "pending_topics") :
    pyGet (compute_delta old_insights new_insights).added k =
      if k ∈ pyKeys old_insights.canvas_state ∧
           canvasAddDiff old_insights.canvas_state new_insights.canvas_state k ≠ ∅
      then some (canvasAddDiff old_insights.canvas_state new_insights.canvas_state k)
      else none := by
  simp only [compute_delta]
  rw [added_ite_removed, added_ite_added, pyGet_ite_dictSet_ne _ _ _ _ _ hk2,
      added_ite_removed, added_ite_added, pyGet_ite_dictSet_ne _ _ _ _ _ hk1,
      pyGet_canvasFold_added]
  rfl

lemma pyGet_compute_delta_removed (old_insights new_insights : BusinessInsights) (k : String)
    (hk1 : k ≠ "constraints") (hk2 : k ≠ "pending_topics") :
    pyGet (compute_delta old_insights new_insights).removed k =
      if k ∈ pyKeys old_insights.canvas_state ∧
           canvasRemDiff old_insights.canvas_state new_insights.canvas_state k ≠ ∅
      then some (canvasRemDiff old_insights.canvas_state new_insights.canvas_state k)
      else none := by
  simp only [compute_delta]
  rw [removed_ite_removed, pyGet_ite_dictSet_ne _ _ _ _ _ hk2, removed_ite_added,
      removed_ite_removed, pyGet_ite_dictSet_ne _ _ _ _ _ hk1, removed_ite_added,
      pyGet_canvasFold_removed]
  rfl

lemma pyGet_compute_delta_added_constraints (old_insights new_insights : BusinessInsights)
    (h : "constraints" ∉ pyKeys old_insights.canvas_state) :
    pyGet (compute_delta old_insights new_insights).added "constraints" =
      if new_insights.constraints.toFinset \ old_insights.constraints.toFinset ≠ ∅
      then some (new_insights.constraints.toFinset \ old_insights.constraints.toFinset)
      else none := by
  simp only [compute_delta]
  rw [added_ite_removed, added_ite_added,
      pyGet_ite_dictSet_ne _ _ _ _ _ (by decide : "constraints" ≠ "pending_topics"),
      added_ite_removed, added_ite_added, pyGet_ite_dictSet_self, pyGet_canvasFold_added]
  simp [h, pyGet]

lemma pyGet_compute_delta_removed_constraints (old_insights new_insights : BusinessInsights)
    (h : "constraints" ∉ pyKeys old_insights.canvas_state) :
    pyGet (compute_delta old_insights new_insights).removed "constraints" =
      if old_insights.constraints.toFinset \ new_insights.constraints.toFinset ≠ ∅
      then some (old_insights.constraints.toFinset \ new_insights.constraints.toFinset)
      else none := by
  simp only [compute_delta]
  rw [removed_ite_removed,
      pyGet_ite_dictSet_ne _ _ _ _ _ (by decide : "constraints" ≠ "pending_topics"),
      removed_ite_added, removed_ite_removed, pyGet_ite_dictSet_self, removed_ite_added,
      pyGet_canvasFold_removed]
  simp [h, pyGet]

lemma pyGet_compute_delta_added_pending (old_insights new_insights : BusinessInsights)
    (h : "pending_topics" ∉ pyKeys old_insights.canvas_state) :
    pyGet (compute_delta old_insights new_insights).added "pending_topics" =
      if new_insights.pending_topics.toFinset \ old_insights.pending_topics.toFinset ≠ ∅
      then some (new_insights.pending_topics.toFinset \ old_insights.pending_topics.toFinset)
      else none := by
  simp only [compute_delta]
  rw [added_ite_removed, added_ite_added, pyGet_ite_dictSet_self, added_ite_removed,
      added_ite_added,
      pyGet_ite_dictSet_ne _ _ _ _ _ (by decide : "pending_topics" ≠ "constraints"),
      pyGet_canvasFold_added]
  simp [h, pyGet]

lemma pyGet_compute_delta_removed_pending (old_insights new_insights : BusinessInsights)
    (h : "pending_topics" ∉ pyKeys old_insights.canvas_state) :
    pyGet (compute_delta old_insights new_insights).removed "pending_topics" =
      if old_insights.pending_topics.toFinset \ new_insights.pending_topics.toFinset ≠ ∅
      then some (old_insights.pending_topics.toFinset \ new_insights.pending_topics.toFinset)
      else none := by
  simp only [compute_delta]
  rw [removed_ite_removed, pyGet_ite_dictSet_self, removed_ite_added, removed_ite_removed,
      pyGet_ite_dictSet_ne _ _ _ _ _ (by decide : "pending_topics" ≠ "constraints"),
      removed_ite_added, pyGet_canvasFold_removed]
  simp [h, pyGet]

lemma canvasStep_const (oldC newC : List (String × List String)) (acc : Delta) (b : String)
    (ha : canvasAddDiff oldC newC b = ∅) (hr : canvasRemDiff oldC newC b = ∅) :
    canvasStep oldC newC acc b = acc := by
  ext1
  · rw [canvasStep_added, ha]; simp
  · rw [canvasStep_removed, hr]; simp
  · rw [canvasStep_modified]

lemma canvasFold_const (oldC newC : List (String × List String))
    (bs : List String) (acc : Delta)
    (h : ∀ b ∈ bs, canvasAddDiff oldC newC b = ∅ ∧ canvasRemDiff oldC newC b = ∅) :
    bs.foldl (canvasStep oldC newC) acc = acc := by
  induction bs generalizing acc with
  | nil => rfl
  | cons b bs ih =>
    rw [List.foldl_cons,
        canvasStep_const _ _ _ _ (h b (by simp)).1 (h b (by simp)).2]
    exact ih _ (fun x hx => h x (by simp [hx]))

/-! ### Claim theorems -/

/-- C9: for every pair of input snapshots, the dict returned by
`compute_delta` has exactly the keys "added", "removed", "modified" (the
three fields of `Delta`, fixed by its construction), and the "modified" map
is the empty map: it is initialized but never populated by any code path. -/
theorem C9_modified_always_empty (old_insights new_insights : BusinessInsights) :
    (compute_delta old_insights new_insights).modified = [] := by
  simp only [compute_delta]
  rw [modified_ite_removed, modified_ite_added, modified_ite_removed, modified_ite_added,
      canvasFold_modified]

/-- C1 (amended): `compute_delta` iterates only over the keys of the OLD
snapshot's canvas dict.  For every pair of snapshots in which the old canvas
dict does not use the synthetic names "constraints"/"pending_topics" as
canvas keys, and for every category that IS a key of the old canvas dict,
`added[cat]`/`removed[cat]` equal the set differences of the two fact lists
and the category appears as a key of the map iff that difference is
non-empty; the synthetic "constraints" and "pending_topics" entries likewise
equal the set differences of the corresponding lists.  (A category present
only in the NEW canvas dict is ignored, so the claim's unrestricted
quantification over categories fails; see the counterexample.) -/
theorem C1_delta_correct_on_old_keys (old_insights new_insights : BusinessInsights)
    (cat : String)
    (hc : "constraints" ∉ pyKeys old_insights.canvas_state)
    (hp : "pending_topics" ∉ pyKeys old_insights.canvas_state)
    (hcat : cat ∈ pyKeys old_insights.canvas_state) :
    (pyGet (compute_delta old_insights new_insights).added cat =
       if canvasAddDiff old_insights.canvas_state new_insights.canvas_state cat ≠ ∅
       then some (canvasAddDiff old_insights.canvas_state new_insights.canvas_state cat)
       else none) ∧
    (cat ∈ pyKeys (compute_delta old_insights new_insights).added ↔
       canvasAddDiff old_insights.canvas_state new_insights.canvas_state cat ≠ ∅) ∧
    (pyGet (compute_delta old_insights new_insights).removed cat =
       if canvasRemDiff old_insights.canvas_state new_insights.canvas_state cat ≠ ∅
       then some (canvasRemDiff old_insights.canvas_state new_insights.canvas_state cat)
       else none) ∧
    (cat ∈ pyKeys (compute_delta old_insights new_insights).removed ↔
       canvasRemDiff old_insights.canvas_state new_insights.canvas_state cat ≠ ∅) ∧
    (pyGet (compute_delta old_insights new_insights).added "constraints" =
       if new_insights.constraints.toFinset \ old_insights.constraints.toFinset ≠ ∅
       then some (new_insights.constraints.toFinset \ old_insights.constraints.toFinset)
       else none) ∧
    (pyGet (compute_delta old_insights new_insights).removed "constraints" =
       if old_insights.constraints.toFinset \ new_insights.constraints.toFinset ≠ ∅
       then some (old_insights.constraints.toFinset \ new_insights.constraints.toFinset)
       else none) ∧
    (pyGet (compute_delta old_insights new_insights).added "pending_topics" =
       if new_insights.pending_topics.toFinset \ old_insights.pending_topics.toFinset ≠ ∅
       then some (new_insights.pending_topics.toFinset \ old_insights.pending_topics.toFinset)
       else none) ∧
    (pyGet (compute_delta old_insights new_insights).removed "pending_topics" =
       if old_insights.pending_topics.toFinset \ new_insights.pending_topics.toFinset ≠ ∅
       then some (old_insights.pending_topics.toFinset \ new_insights.pending_topics.toFinset)
       else none) := by
  have hcat1 : cat ≠ "constraints" := fun h => hc (h ▸ hcat)
  have hcat2 : cat ≠ "pending_topics" := fun h => hp (h ▸ hcat)
  have ha := pyGet_compute_delta_added old_insights new_insights cat hcat1 hcat2
  have hr := pyGet_compute_delta_removed old_insights new_insights cat hcat1 hcat2
  refine ⟨?_, ?_, ?_, ?_,
    pyGet_compute_delta_added_constraints old_insights new_insights hc,
    pyGet_compute_delta_removed_constraints old_insights new_insights hc,
    pyGet_compute_delta_added_pending old_insights new_insights hp,
    pyGet_compute_delta_removed_pending old_insights new_insights hp⟩
  · rw [ha]; simp [hcat]
  · rw [mem_pyKeys_iff_pyGet, ha]
    by_cases hd : canvasAddDiff old_insights.canvas_state new_insights.canvas_state cat = ∅ <;>
      simp [hd, hcat]
  · rw [hr]; simp [hcat]
  · rw [mem_pyKeys_iff_pyGet, hr]
    by_cases hd : canvasRemDiff old_insights.canvas_state new_insights.canvas_state cat = ∅ <;>
      simp [hd, hcat]

/-- C1 witness: on snapshots whose old canvas has the default nine keys,
the "channels" addition is reported exactly. -/
theorem C1_delta_correct_on_old_keys_witness :
    pyGet (compute_delta ⟨defaultCanvasState, [], [], []⟩
        ⟨[("channels", ["Web"])], ["NoSubs"], [], []⟩).added "channels" =
      some ({"Web"} : Finset String) := by
  have h := (C1_delta_correct_on_old_keys ⟨defaultCanvasState, [], [], []⟩
      ⟨[("channels", ["Web"])], ["NoSubs"], [], []⟩ "channels"
      (by decide) (by decide) (by decide)).1
  rw [h]
  decide

/-- C1 counterexample: the claim as stated quantifies over ALL snapshot
pairs and ALL canvas categories.  With an old snapshot whose canvas dict is
empty and a new snapshot adding "Web" under "channels", the set difference
for the canvas category "channels" is non-empty, yet "channels" is not a key
of the added map (the loop ranges over the old dict's keys only). -/
theorem C1_counterexample :
    pyGet (compute_delta ⟨[], [], [], []⟩ ⟨[("channels", ["Web"])], [], [], []⟩).added
        "channels" = none ∧
    canvasAddDiff ([] : List (String × List String)) [("channels", ["Web"])] "channels" ≠ ∅ := by
  constructor
  · decide
  · decide

/-- C6: for every pair of snapshots in which each canvas category's list,
the constraints list and the pending_topics list of `new` is a permutation
of the corresponding list of `old` (a missing category reads as the empty
list; `new = old` is the special case of identical permutations),
`compute_delta` has empty added/removed (and modified) maps, and the derived
`has_changes` is false. -/
theorem C6_perm_invariance (old_insights new_insights : BusinessInsights)
    (hcanvas : ∀ b, (pyGetD new_insights.canvas_state b []).Perm
        (pyGetD old_insights.canvas_state b []))
    (hcons : new_insights.constraints.Perm old_insights.constraints)
    (hpend : new_insights.pending_topics.Perm old_insights.pending_topics) :
    compute_delta old_insights new_insights = ⟨[], [], []⟩ ∧
    deltaHasChanges (compute_delta old_insights new_insights) = false := by
  have hfin : ∀ b, (pyGetD new_insights.canvas_state b []).toFinset =
      (pyGetD old_insights.canvas_state b []).toFinset := fun b => List.toFinset_eq_of_perm _ _ (hcanvas b)
  have hmain : compute_delta old_insights new_insights = ⟨[], [], []⟩ := by
    simp only [compute_delta]
    rw [canvasFold_const]
    · rw [List.toFinset_eq_of_perm _ _ hcons, List.toFinset_eq_of_perm _ _ hpend]
      simp
    · intro b _
      exact ⟨by simp [canvasAddDiff, hfin b], by simp [canvasRemDiff, hfin b]⟩
  exact ⟨hmain, by rw [hmain]; rfl⟩

/-- C6 witness: reordered but otherwise unchanged lists give an empty delta. -/
theorem C6_perm_invariance_witness :
    compute_delta ⟨[("channels", ["a", "b"])], ["c1", "c2"], [], ["p"]⟩
        ⟨[("channels", ["b", "a"])], ["c2", "c1"], [], ["p"]⟩ = ⟨[], [], []⟩ ∧
    deltaHasChanges (compute_delta ⟨[("channels", ["a", "b"])], ["c1", "c2"], [], ["p"]⟩
        ⟨[("channels", ["b", "a"])], ["c2", "c1"], [], ["p"]⟩) = false := by
  refine C6_perm_invariance _ _ ?_ (by decide) (by decide)
  intro b
  by_cases hb : ("channels" : String) = b
  · subst hb
    decide
  · have h1 : pyGetD [(("channels" : String), ["b", "a"])] b [] = [] := by
      simp [pyGetD, pyGet, hb]
    have h2 : pyGetD [(("channels" : String), ["a", "b"])] b [] = [] := by
      simp [pyGetD, pyGet, hb]
    rw [h1, h2]

/-- C2: if the extraction oracle's response is not valid JSON
(`parsed = none`), or parses to JSON that fails `BusinessInsights` schema
validation (e.g. a nested dict inside a canvas category list),
`extract_business_facts` does not raise: it returns the existing snapshot
unchanged with the empty delta and `has_changes = false`. -/
theorem C2_schema_rejection_no_op (existing_insights : BusinessInsights)
    (parsed : Option PyVal)
    (h : parsed = none ∨ ∃ v, parsed = some v ∧ validateInsights v = none) :
    extract_business_facts existing_insights parsed =
      ⟨existing_insights, .emptyDict, false⟩ := by
  rcases h with h | ⟨v, rfl, hv⟩
  · rw [h]; rfl
  · simp only [extract_business_facts]
    rw [hv]
    rfl

/-- C2 witness: a JSON object with a nested dict inside the "channels"
category list is rejected and the default snapshot is returned unchanged. -/
theorem C2_schema_rejection_no_op_witness :
    extract_business_facts BusinessInsights.default
        (some (.pydict [("canvas_state", .pydict [("channels", .pylist [.pydict []])])])) =
      ⟨BusinessInsights.default, .emptyDict, false⟩ :=
  C2_schema_rejection_no_op _ _ (Or.inr ⟨_, rfl, rfl⟩)

/-- C3: `update_user_memory` writes to the store only when the extraction
result has `has_changes = true`; when false the store is untouched, and when
true the stored user's `key_insights` is replaced wholesale by the
extractor's new snapshot (no field-level merge at the storage layer). -/
theorem C3_persist_only_on_change (store : UserStore) (user_token : String)
    (user : BusinessUser) (parsed : Option PyVal)
    (huser : get_user_by_token store user_token = some user) :
    ((extract_business_facts user.key_insights parsed).has_changes = false →
       update_user_memory store user_token parsed =
         (store, some (extract_business_facts user.key_insights parsed))) ∧
    ((extract_business_facts user.key_insights parsed).has_changes = true →
       update_user_memory store user_token parsed =
         (update_user store user_token
            { user with key_insights :=
                (extract_business_facts user.key_insights parsed).updated_insights },
          some (extract_business_facts user.key_insights parsed))) := by
  unfold update_user_memory
  rw [huser]
  constructor
  · intro h
    simp [h]
  · intro h
    simp [h]

/-- C3 witness: a failed parse yields `has_changes = false` and the store is
returned unchanged. -/
theorem C3_persist_only_on_change_witness :
    update_user_memory
        [("t", ⟨"t", "user", "o", "b", "s", [], [], BusinessInsights.default⟩)] "t" none =
      ([("t", ⟨"t", "user", "o", "b", "s", [], [], BusinessInsights.default⟩)],
       some ⟨BusinessInsights.default, .emptyDict, false⟩) :=
  (C3_persist_only_on_change
    [("t", ⟨"t", "user", "o", "b", "s", [], [], BusinessInsights.default⟩)] "t"
    ⟨"t", "user", "o", "b", "s", [], [], BusinessInsights.default⟩ none rfl).1 rfl

/-- C8: when the token does not resolve to a user, `update_user_memory`
returns `None` with the store untouched — no extraction, no write, no
exception to the caller. -/
theorem C8_user_not_found (store : UserStore) (user_token : String)
    (parsed : Option PyVal)
    (h : get_user_by_token store user_token = none) :
    update_user_memory store user_token parsed = (store, none) := by
  unfold update_user_memory
  rw [h]

/-- C8 witness: the empty store resolves no token. -/
theorem C8_user_not_found_witness :
    update_user_memory [] "missing" none = ([], none) :=
  C8_user_not_found [] "missing" none rfl

/-- C4: `generate_suggestion` returns the null suggestion uniformly in the
oracle input (so without invoking the oracle) whenever the delta dict is
empty, its added map is empty, or no added category is a key of the
cross-canvas implication table. -/
theorem C4_fast_reject_gate (delta : DeltaVal) (oracle : Option OracleSuggestionJson)
    (h : delta = .emptyDict ∨
         ∃ d, delta = .full d ∧
           (d.added = [] ∨ ∀ p ∈ d.added, p.1 ∉ pyKeys CANVAS_IMPLICATIONS)) :
    generate_suggestion delta oracle = ⟨none, none, 0⟩ := by
  have hgate : hasCrossCanvasPotential delta = false := by
    rcases h with rfl | ⟨d, rfl, hd | hd⟩
    · rfl
    · simp [hasCrossCanvasPotential, hd]
    · simp only [hasCrossCanvasPotential]
      split
      · rfl
      · rw [List.any_eq_false]
        intro p hp
        simpa using hd p hp
  unfold generate_suggestion
  rw [hgate]
  rfl

/-- C4 witness: an added map touching only "preferences" (not a key of the
implication table) is fast-rejected even with a confident oracle input. -/
theorem C4_fast_reject_gate_witness :
    generate_suggestion (.full ⟨[("preferences", {"Be concise"})], [], []⟩)
        (some ⟨some "Add X", some "channels", some 1⟩) = ⟨none, none, 0⟩ :=
  C4_fast_reject_gate _ _ (Or.inr ⟨_, rfl, Or.inr (by decide)⟩)

/-- C5: `should_show` is true iff the suggestion is non-null and confidence
is at least 0.6; boundary cases: confidence exactly 0.6 shows, 0.5999 does
not. -/
theorem C5_confidence_threshold (s : ProactiveSuggestion) :
    (s.should_show = true ↔ s.suggestion ≠ none ∧ (6 : ℚ)/10 ≤ s.confidence) ∧
    (ProactiveSuggestion.mk (some "x") none ((6 : ℚ)/10)).should_show = true ∧
    (ProactiveSuggestion.mk (some "x") none ((5999 : ℚ)/10000)).should_show = false := by
  refine ⟨?_, ?_, ?_⟩
  · simp [ProactiveSuggestion.should_show, Option.isSome_iff_ne_none]
  · norm_num [ProactiveSuggestion.should_show]
  · norm_num [ProactiveSuggestion.should_show]

/-- C10: when the gate passes and the suggestion oracle's JSON omits the
"confidence" field, the resulting suggestion gets the default confidence 0.5
and `should_show` is false, so it is suppressed even with a non-null
suggestion text. -/
theorem C10_default_confidence_suppresses (delta : DeltaVal)
    (j : OracleSuggestionJson)
    (hgate : hasCrossCanvasPotential delta = true)
    (hconf : j.confidence = none) :
    (generate_suggestion delta (some j)).confidence = (5 : ℚ)/10 ∧
    (generate_suggestion delta (some j)).should_show = false := by
  have hres : generate_suggestion delta (some j) =
      ⟨j.suggestion, j.target_block, (5 : ℚ)/10⟩ := by
    unfold generate_suggestion
    rw [hgate]
    simp [hconf]
  rw [hres]
  have hlt : ¬ ((6 : ℚ)/10 ≤ (5 : ℚ)/10) := by norm_num
  exact ⟨rfl, by simp [ProactiveSuggestion.should_show, hlt]⟩

/-- C10 witness: gate-passing delta, non-null suggestion text, no
"confidence" key. -/
theorem C10_default_confidence_suppresses_witness :
    (generate_suggestion (.full ⟨[("customer_segments", {"SMB"})], [], []⟩)
        (some ⟨some "Add Direct Sales to Channels", some "channels", none⟩)).confidence =
      (5 : ℚ)/10 ∧
    (generate_suggestion (.full ⟨[("customer_segments", {"SMB"})], [], []⟩)
        (some ⟨some "Add Direct Sales to Channels", some "channels", none⟩)).should_show =
      false :=
  C10_default_confidence_suppresses _ _ (by decide) rfl

lemma should_show_imp_gate (delta : DeltaVal) (oracle : Option OracleSuggestionJson)
    (h : (generate_suggestion delta oracle).should_show = true) :
    hasCrossCanvasPotential delta = true := by
  by_contra hc
  rw [Bool.not_eq_true] at hc
  unfold generate_suggestion at h
  rw [hc] at h
  simp [ProactiveSuggestion.should_show] at h

/-- C7: when the generated suggestion passes the `should_show` gate, the
node appends the tagged string `"[SYS] " ++ suggestion` to the user's
`pending_topics` and persists the user; when that exact tagged string is
already present, it is not appended again and the store is unchanged. -/
theorem C7_sys_topic_staging (store : UserStore) (user_token : String)
    (user : BusinessUser) (dv : DeltaVal) (oracle : Option OracleSuggestionJson)
    (htok : user_token ≠ "")
    (huser : get_user_by_token store user_token = some user)
    (hshow : (generate_suggestion dv oracle).should_show = true) :
    ("[SYS] " ++ fstr (generate_suggestion dv oracle).suggestion ∉
         user.key_insights.pending_topics →
       proactive_suggestion_node store (some dv) user_token oracle =
         (update_user store user_token
            { user with key_insights :=
                { user.key_insights with pending_topics :=
                    user.key_insights.pending_topics ++
                      ["[SYS] " ++ fstr (generate_suggestion dv oracle).suggestion] } },
          ((generate_suggestion dv oracle).suggestion,
           (generate_suggestion dv oracle).target_block))) ∧
    ("[SYS] " ++ fstr (generate_suggestion dv oracle).suggestion ∈
         user.key_insights.pending_topics →
       proactive_suggestion_node store (some dv) user_token oracle =
         (store,
          ((generate_suggestion dv oracle).suggestion,
           (generate_suggestion dv oracle).target_block))) := by
  have hgate := should_show_imp_gate dv oracle hshow
  have htruthy : deltaTruthy (some dv) = true := by
    cases dv with
    | emptyDict => simp [hasCrossCanvasPotential] at hgate
    | full d => rfl
  unfold proactive_suggestion_node
  rw [htruthy]
  simp only [Bool.not_true, Bool.false_or]
  rw [if_neg (by simp [htok]), huser]
  simp only [Option.getD_some, hshow, if_true]
  constructor
  · intro hmem
    rw [if_neg hmem]
  · intro hmem
    rw [if_pos hmem]

/-- C7 witness: a fresh suggestion is tagged, appended and persisted. -/
theorem C7_sys_topic_staging_witness :
    proactive_suggestion_node
        [("t", ⟨"t", "user", "o", "b", "s", [], [], ⟨defaultCanvasState, [], [], []⟩⟩)]
        (some (.full ⟨[("customer_segments", {"SMB"})], [], []⟩)) "t"
        (some ⟨some "Add Direct Sales to Channels", some "channels", some ((8 : ℚ)/10)⟩) =
      ([("t", ⟨"t", "user", "o", "b", "s", [], [],
          ⟨defaultCanvasState, [], [], ["[SYS] Add Direct Sales to Channels"]⟩⟩)],
       (some "Add Direct Sales to Channels", some "channels")) := by
  have hres : generate_suggestion (.full ⟨[("customer_segments", {"SMB"})], [], []⟩)
      (some ⟨some "Add Direct Sales to Channels", some "channels", some ((8 : ℚ)/10)⟩) =
      ⟨some "Add Direct Sales to Channels", some "channels", (8 : ℚ)/10⟩ := by
    unfold generate_suggestion
    rw [show hasCrossCanvasPotential
        (.full ⟨[("customer_segments", {"SMB"})], [], []⟩) = true from by decide]
    rfl
  have hshow : (generate_suggestion (.full ⟨[("customer_segments", {"SMB"})], [], []⟩)
      (some ⟨some "Add Direct Sales to Channels", some "channels",
        some ((8 : ℚ)/10)⟩)).should_show = true := by
    rw [hres]
    norm_num [ProactiveSuggestion.should_show]
  have h := (C7_sys_topic_staging
      [("t", ⟨"t", "user", "o", "b", "s", [], [], ⟨defaultCanvasState, [], [], []⟩⟩)] "t"
      ⟨"t", "user", "o", "b", "s", [], [], ⟨defaultCanvasState, [], [], []⟩⟩
      (.full ⟨[("customer_segments", {"SMB"})], [], []⟩)
      (some ⟨some "Add Direct Sales to Channels", some "channels", some ((8 : ℚ)/10)⟩)
      (by decide) rfl hshow).1 (by simp)
  rw [h, hres]
  rfl

end BMC
